import Mathlib

set_option linter.unusedVariables false

/-!
Shallow embedding of the OpenBlock registry CLI toolchain fetch subsystem:
`registry-fetcher.js` (download, checksum verification, atomic extraction,
per-toolchain fetch, batch fetch), `packages-index.js` (index fetch with
in-memory TTL cache), `dependency-resolver.js` (dependency classification),
and the progress-callback wiring of the dev command's dependency resolution.

Modelling conventions:
* JavaScript strings that may be `undefined`/`null` are `Option String`;
  JS truthiness is `truthyS` (absent or empty string is falsy).
* Fallible asynchronous operations (network fetch, zip parsing) are `Except`
  values supplied by an environment record.
* Side effects (network requests, cache writes, progress callbacks,
  filesystem promotion of the staging directory) are recorded either as
  explicit event traces or as explicit before/after states.
-/

/-- JS truthiness of a possibly-absent string: `undefined`, `null` and `""` are falsy. -/
def truthyS : Option String → Bool
  | none => false
  | some s => s != ""

/-- JS `a || b` on possibly-absent strings. -/
def jsOr (a b : Option String) : Option String :=
  if truthyS a then a else b

/-- JS template interpolation of a possibly-absent string (`undefined` prints as "undefined"). -/
def jsStr : Option String → String
  | none => "undefined"
  | some s => s

/-- JS `toLowerCase()` (ASCII case folding suffices for hex digests). -/
def strToLower (s : String) : String :=
  String.mk (s.data.map Char.toLower)

/-- Characters of a segment up to the next `:` — the behaviour of one cell of
JS `split(':')`. -/
def splitSeg : List Char → List Char
  | [] => []
  | c :: rest => if c = ':' then [] else c :: splitSeg rest

/-- Characters strictly between the first and second `:` of the list — the
behaviour of JS `split(':')[1]` when the list contains a `:`. -/
def segAfterFirstColon : List Char → List Char
  | [] => []
  | c :: rest => if c = ':' then splitSeg rest else segAfterFirstColon rest

/-- `sha256.split(':')[1]` from `fetchToolchain`: the substring between the
first and second colon of `s` (total function; only used when `s` has a colon). -/
def afterFirstColon (s : String) : String :=
  String.mk (segAfterFirstColon s.data)

/-- JS `s.includes(':')`. -/
def strHasColon (s : String) : Bool :=
  s.data.any (fun c => c == ':')

/-- `registry-fetcher.js` lines 345-348: `if (sha256 && sha256.includes(':'))
sha256 = sha256.split(':')[1];` — the truthiness test is subsumed by the colon
test since the empty string contains no colon. -/
def normalizeSha : Option String → Option String
  | none => none
  | some s => if strHasColon s then some (afterFirstColon s) else some s

/-- `verifyChecksum(buffer, expectedHash)` from `registry-fetcher.js` lines
86-92.  The SHA-256 digest computation performed by Node's `crypto` module is
abstracted as the function argument `sha256hex` (lowercase hex output, as
`digest('hex')` produces); the comparison logic is translated verbatim:
absent or empty expected hash passes, otherwise lowercase digests are compared. -/
def verifyChecksum (sha256hex : List Nat → String) (buffer : List Nat)
    (expectedHash : Option String) : Bool :=
  match expectedHash with
  | none => true
  | some s =>
    if s == "" then true
    else strToLower (sha256hex buffer) == strToLower s

/-! ## Dependency resolver (`dependency-resolver.js`) -/

/-- `isLocalPath` from `dependency-resolver.js` lines 18-20. -/
def isLocalPath (identifier : String) : Bool :=
  identifier.startsWith "./" || identifier.startsWith "../"

/-- Warning text pushed for a non-local library dependency
(`dependency-resolver.js` lines 64-67). -/
def libraryWarning (name : String) : String :=
  "Library \"" ++ name ++ "\" must use local path (e.g., ./libraries/" ++ name ++
    "). Remote libraries are not supported. Ignoring."

/-- Warning text pushed for a toolchain dependency that is neither local nor
"latest" (`dependency-resolver.js` lines 79-82). -/
def toolchainWarning (name : String) : String :=
  "Toolchain \"" ++ name ++ "\" must use \x27latest\x27 or local path. " ++
    "Version ranges are not supported. Ignoring."

/-- The libraries loop of `parseDependencies` (lines 59-69): returns the kept
local libraries and the warnings, both in declaration order. -/
def parseLibraryDeps : List (String × String) → List (String × String) × List String
  | [] => ([], [])
  | (name, identifier) :: rest =>
    let tail := parseLibraryDeps rest
    if isLocalPath identifier then ((name, identifier) :: tail.1, tail.2)
    else (tail.1, libraryWarning name :: tail.2)

/-- The toolchains loop of `parseDependencies` (lines 72-84): returns the local
map, the remote map and the warnings, in declaration order. -/
def parseToolchainDeps :
    List (String × String) → List (String × String) × List (String × String) × List String
  | [] => ([], [], [])
  | (name, identifier) :: rest =>
    let tail := parseToolchainDeps rest
    if isLocalPath identifier then ((name, identifier) :: tail.1, tail.2.1, tail.2.2)
    else if identifier == "latest" then (tail.1, (name, identifier) :: tail.2.1, tail.2.2)
    else (tail.1, tail.2.1, toolchainWarning name :: tail.2.2)

/-- Result shape of `parseDependencies` (`dependency-resolver.js` lines 49-56);
JS objects built by insertion are modelled as association lists in insertion
order. -/
structure ParsedDeps where
  libraries : List (String × String)
  toolchainsLocal : List (String × String)
  toolchainsRemote : List (String × String)
  warnings : List String
deriving DecidableEq

/-- `parseDependencies` from `dependency-resolver.js` lines 38-87, restricted to
its classification core: the `package.json` reading is elided and the two
declared dependency maps are passed in directly.  The libraries loop runs
before the toolchains loop, so library warnings precede toolchain warnings. -/
def parseDependencies (libraries toolchains : List (String × String)) : ParsedDeps :=
  let libs := parseLibraryDeps libraries
  let tcs := parseToolchainDeps toolchains
  ⟨libs.1, tcs.1, tcs.2.1, libs.2 ++ tcs.2.2⟩

/-! ## Atomic extraction (`registry-fetcher.js` lines 196-217) -/

/-- The two directories `downloadAndExtract`'s extraction step touches: the
final destination `destDir` and the sibling staging directory
`destDir + ".extracting"`.  `none` means the directory does not exist;
`some files` is its contents. -/
structure ExtractFS where
  dest : Option (List String)
  staging : Option (List String)
deriving DecidableEq

/-- The extraction step of `downloadAndExtract` (lines 196-217).
`zipOpen` is the outcome of `new AdmZip(archivePath)` (which parses the archive
and may throw before the `try` block is entered); `zipContents` is the outcome
of `zip.extractAllTo(tempExtractDir, true)`, yielding the extracted file set on
success.  Step for step: remove any stale staging dir, create it, extract into
it; on success remove the destination and move the staging dir onto it; on
extraction failure remove the staging dir and rethrow. -/
def extractPhase (zipOpen : Except String Unit) (zipContents : Except String (List String))
    (s : ExtractFS) : Except String Unit × ExtractFS :=
  match zipOpen with
  | Except.error e => (Except.error e, s)
  | Except.ok _ =>
    -- await fs.remove(tempExtractDir); await fs.ensureDir(tempExtractDir)
    let s1 : ExtractFS := ⟨s.dest, some []⟩
    match zipContents with
    | Except.error e =>
      -- catch: await fs.remove(tempExtractDir); throw err
      (Except.error e, ⟨s1.dest, none⟩)
    | Except.ok files =>
      -- zip.extractAllTo succeeded; await fs.remove(destDir); await fs.move(temp, destDir)
      (Except.ok (), ⟨some files, none⟩)

/-! ## Download phase (`registry-fetcher.js` lines 120-189) -/

/-- Observable events of the download phase of `downloadAndExtract`:
the HTTP fetch of the archive, each received body chunk, each invocation of
`options.onProgress` (recorded with the percent it reports), and the write of
the assembled buffer to the archive cache path. -/
inductive DlEvent where
  | fetchUrl
  | recv (chunk : List Nat)
  | progress (percent : Nat)
  | writeCache (buffer : List Nat)
deriving DecidableEq

/-- `Math.round((downloadedSize / totalSize) * 100)` on naturals
(round half up, as `Math.round` does for positive values). -/
def roundPercent (downloaded totalSize : Nat) : Nat :=
  (200 * downloaded + totalSize) / (2 * totalSize)

/-- The `for await (const chunk of response.body)` loop (lines 161-173):
each chunk is accumulated, and whenever `options.onProgress` is set and
`totalSize > 0` the progress callback is invoked with the recomputed percent.
`downloaded` is the byte count received before the remaining chunks. -/
def dlChunkEvents (hasOnProgress : Bool) (totalSize : Nat) :
    Nat → List (List Nat) → List DlEvent
  | _, [] => []
  | downloaded, c :: rest =>
    let d := downloaded + c.length
    DlEvent.recv c ::
      ((if hasOnProgress ∧ 0 < totalSize then [DlEvent.progress (roundPercent d totalSize)]
        else []) ++ dlChunkEvents hasOnProgress totalSize d rest)

/-- Environment of one `downloadAndExtract` download: the abstract SHA-256 hex
digest function, the archive cache file currently at `archivePath` (if any),
and the HTTP response — an error for a network failure or non-ok status, or
the `content-length` header value together with the body chunks. -/
structure DlEnv where
  hash : List Nat → String
  cached : Option (List Nat)
  response : Except String (Nat × List (List Nat))

/-- Call arguments of the download phase taken from `options`:
`sha256`, `size` and whether `onProgress` was supplied. -/
structure DlArgs where
  sha256 : Option String
  size : Option Nat
  hasOnProgress : Bool

/-- Outcome of the download phase: its event trace, whether it completed (so
that extraction proceeds) or threw, and the archive cache contents afterwards. -/
structure DlOutcome where
  events : List DlEvent
  result : Except String Unit
  cacheAfter : Option (List Nat)

/-- Lines 126-138: `needDownload` is cleared exactly when a checksum was
supplied, the cached archive file exists, and it verifies against the
checksum. -/
def skipDownload (hash : List Nat → String) (cached : Option (List Nat))
    (sha256 : Option String) : Bool :=
  truthyS sha256 &&
    (match cached with
     | some c => verifyChecksum hash c sha256
     | none => false)

/-- Line 148-150: `totalSize` is `options.size` if truthy (JS `0` is falsy),
else the `content-length` header value. -/
def dlTotalSize (size : Option Nat) (contentLength : Nat) : Nat :=
  match size with
  | some n => if n ≠ 0 then n else contentLength
  | none => contentLength

/-- The download phase of `downloadAndExtract` (lines 126-189).  When the
cached archive verifies, nothing happens and the cache is reused.  Otherwise
the URL is fetched (a failed fetch or non-ok status throws), the body is
streamed chunk by chunk with progress callbacks, the assembled buffer is
verified when a checksum was supplied (mismatch throws before anything is
written), and only then is the whole buffer written to the archive cache. -/
def downloadPhase (env : DlEnv) (url : String) (a : DlArgs) : DlOutcome :=
  if skipDownload env.hash env.cached a.sha256 then
    ⟨[], Except.ok (), env.cached⟩
  else
    match env.response with
    | Except.error e => ⟨[DlEvent.fetchUrl], Except.error e, env.cached⟩
    | Except.ok (contentLength, chunks) =>
      let totalSize := dlTotalSize a.size contentLength
      let events := DlEvent.fetchUrl :: dlChunkEvents a.hasOnProgress totalSize 0 chunks
      let buffer := chunks.flatten
      if truthyS a.sha256 && !(verifyChecksum env.hash buffer a.sha256) then
        ⟨events, Except.error ("Checksum verification failed for " ++ url), env.cached⟩
      else
        ⟨events ++ [DlEvent.writeCache buffer], Except.ok (), some buffer⟩

/-- True when no `recv` event follows any `writeCache` event: the cache file is
written only after the whole response body has been received. -/
def noRecvAfterWrite : List DlEvent → Bool
  | [] => true
  | DlEvent.writeCache _ :: rest =>
    rest.all (fun e => match e with | DlEvent.recv _ => false | _ => true) &&
      noRecvAfterWrite rest
  | _ :: rest => noRecvAfterWrite rest

/-- The percents reported by the progress events of a trace, in order. -/
def progressPercents : List DlEvent → List Nat
  | [] => []
  | DlEvent.progress p :: rest => p :: progressPercents rest
  | _ :: rest => progressPercents rest

/-- Whether a list contains two equal adjacent elements. -/
def hasAdjacentDup : List Nat → Bool
  | [] => false
  | [_] => false
  | a :: b :: rest => (a == b) || hasAdjacentDup (b :: rest)

/-- The dev command's `onDownloadProgress` handler (`resolve-dependencies`
lines 95-102): given the stream of percents the fetcher reports and the current
`lastTcPercent` (initially `-1`), it redraws the progress line only when the
percent differs from the last one drawn.  Returns the percents actually drawn. -/
def callerProgressUpdates : Int → List Nat → List Nat
  | _, [] => []
  | last, p :: rest =>
    if (p : Int) = last then callerProgressUpdates last rest
    else p :: callerProgressUpdates (p : Int) rest

/-! ## Packages metadata shapes (`packages.json` entries) -/

/-- One entry of a `systems` array (Arduino-style, with a `host` field).
All fields are optional JSON properties. -/
structure SystemEntry where
  host : Option String
  url : Option String
  checksum : Option String
  archiveFileName : Option String
  size : Option Nat
deriving DecidableEq

/-- One value of a `platforms` map (keyed by OS name). -/
structure PlatformEntry where
  downloadUrl : Option String
  url : Option String
  checksum : Option String
  sha256 : Option String
  archiveFileName : Option String
  size : Option Nat
deriving DecidableEq

/-- One resolvable version of a toolchain (`VersionEntry`): a version string
plus the three possible download-location shapes. -/
structure VersionEntry where
  version : Option String
  systems : Option (List SystemEntry)
  platforms : Option (List (String × PlatformEntry))
  url : Option String
  checksum : Option String
  archiveFileName : Option String
  size : Option Nat
deriving DecidableEq

/-- One toolchain entry of `packages.json`: either the single-version format
(`version` present, no `versions`) or the versions-array format. -/
structure ToolchainInfo where
  id : Option String
  name : Option String
  version : Option String
  versions : Option (List VersionEntry)
  systems : Option (List SystemEntry)
  platforms : Option (List (String × PlatformEntry))
  url : Option String
  checksum : Option String
  archiveFileName : Option String
  size : Option Nat
deriving DecidableEq

/-- The packages index structure; each category is an optional array. -/
structure Packages where
  devices : Option (List ToolchainInfo)
  extensions : Option (List ToolchainInfo)
  libraries : Option (List ToolchainInfo)
  toolchains : Option (List ToolchainInfo)
deriving DecidableEq

/-- The empty default structure of `getPackagesIndex`
(`packages-index.js` lines 125-132). -/
def emptyPackages : Packages :=
  ⟨some [], some [], some [], some []⟩

/-- `findToolchain` from `packages-index.js` lines 160-165: exact match on the
`id` or `name` field; a missing or non-array `toolchains` field yields null. -/
def findToolchain (packages : Packages) (name : String) : Option ToolchainInfo :=
  match packages.toolchains with
  | none => none
  | some l => l.find? (fun tc => tc.id == some name || tc.name == some name)

/-! ## Packages index client (`packages-index.js`) -/

/-- Cache TTL for `packages.json`: 1 hour in milliseconds (line 12). -/
def PACKAGES_CACHE_TTL : Nat := 3600000

/-- The module-level mutable cache of `packages-index.js`
(`cachedPackages` / `cacheTimestamp`, lines 15-16). -/
structure IndexState where
  cachedPackages : Option Packages
  cacheTimestamp : Nat
deriving DecidableEq

/-- `clearCache` from `packages-index.js` lines 170-173. -/
def clearCache : IndexState :=
  ⟨none, 0⟩

/-- Network environment for one `getPackagesIndex` call:
`rsResult` is what `fetchFromResourceService` resolves to (it never rejects:
any error resolves to null), and `regResult` is what `fetchFromRegistry`
resolves to — `none` for null, `some d` for a JSON document whose `packages`
field is `d`. -/
structure IndexEnv where
  rsResult : Option Packages
  regResult : Option (Option Packages)

/-- Network requests observable during `getPackagesIndex`. -/
inductive NetEvent where
  | rsFetch
  | regFetch
deriving DecidableEq

/-- The fetch-and-cache path of `getPackagesIndex` (lines 109-138): the
Resource Service is queried only when no `registryUrl` was supplied; the
registry is fetched only when no packages were obtained and a `registryUrl`
was supplied (and only a truthy document with a truthy `packages` field
counts); otherwise the empty default structure is used.  Whatever was obtained
is stored in the cache with the current timestamp. -/
def refreshPackagesIndex (env : IndexEnv) (now : Nat) (registryUrl : Option String) :
    Packages × IndexState × List NetEvent :=
  let step1 : Option Packages × List NetEvent :=
    if truthyS registryUrl then (none, [])
    else (env.rsResult, [NetEvent.rsFetch])
  let step2 : Option Packages × List NetEvent :=
    if step1.1.isNone && truthyS registryUrl then
      (match env.regResult with
       | some (some q) => some q
       | _ => none,
       step1.2 ++ [NetEvent.regFetch])
    else step1
  let packages :=
    match step2.1 with
    | some q => q
    | none => emptyPackages
  (packages, ⟨some packages, now⟩, step2.2)

/-- `getPackagesIndex` from `packages-index.js` lines 101-139, with the
module-level cache passed as explicit state and `Date.now()` as `now`.
The cache is returned as-is when `forceRefresh` is unset, a cached value
exists, and it is younger than the TTL. -/
def getPackagesIndex (env : IndexEnv) (now : Nat) (registryUrl : Option String)
    (forceRefresh : Bool) (st : IndexState) : Packages × IndexState × List NetEvent :=
  match st.cachedPackages with
  | some c =>
    if forceRefresh = false ∧ now - st.cacheTimestamp < PACKAGES_CACHE_TTL then
      (c, st, [])
    else refreshPackagesIndex env now registryUrl
  | none => refreshPackagesIndex env now registryUrl

/-- A sequence of `getPackagesIndex` calls (each with `forceRefresh` unset),
threading the module-level cache state; returns the result and network trace
of every call together with the final state. -/
def runIndexCalls : IndexState → List (IndexEnv × Nat × Option String) →
    List (Packages × List NetEvent) × IndexState
  | st, [] => ([], st)
  | st, (env, now, r) :: rest =>
    match getPackagesIndex env now r false st with
    | (p, st1, evs) =>
      match runIndexCalls st1 rest with
      | (outs, stF) => ((p, evs) :: outs, stF)

/-! ## Registry fetcher (`registry-fetcher.js`) -/

/-- Toolchains directory relative to the project (line 21). -/
def TOOLCHAINS_DIR : String := ".openblock/toolchains"

/-- Download cache directory relative to the project (line 23). -/
def DOWNLOAD_CACHE_DIR : String := ".openblock/downloads"

/-- `getLatestVersion` from `registry-fetcher.js` lines 54-78.  Single-version
format applies when `version` is truthy and `versions` is absent; note that the
object it builds carries no `platforms` field.  Otherwise the first element of
a non-empty `versions` array is returned. -/
def getLatestVersion (toolchainInfo : Option ToolchainInfo) : Option VersionEntry :=
  match toolchainInfo with
  | none => none
  | some info =>
    if truthyS info.version && info.versions.isNone then
      some ⟨info.version, info.systems, none, info.url, info.checksum,
            info.archiveFileName, info.size⟩
    else
      match info.versions with
      | some (v :: _) => some v
      | _ => none

/-- `findMatchingSystem` from `registry-fetcher.js` lines 37-46, with the host
string (`getHostString()`) passed explicitly.  A missing/non-array `systems`
yields null; otherwise `find` returns the first entry whose `host` field
strictly equals the host string, or null. -/
def findMatchingSystem (hostString : String) (systems : Option (List SystemEntry)) :
    Option SystemEntry :=
  match systems with
  | none => none
  | some l => l.find? (fun s => s.host == some hostString)

/-- The resolved download location: URL plus the accompanying checksum,
archive file name and size variables of `fetchToolchain`. -/
structure DownloadInfo where
  url : String
  sha256 : Option String
  archiveFileName : Option String
  size : Option Nat
deriving DecidableEq

/-- The download-location resolution block of `fetchToolchain`
(`registry-fetcher.js` lines 299-343), translated with the four mutable
variables (`downloadUrl`, `sha256`, `archiveFileName`, `size`) threaded through
the three `if (!downloadUrl && ...)` steps: first a matching `systems` entry,
then the `platforms` map keyed by `process.platform`, then the direct `url`
field.  Returns null when no step produced a truthy URL. -/
def resolveDownload (hostString osPlatform : String) (v : VersionEntry) :
    Option DownloadInfo :=
  let s1 : Option String × Option String × Option String × Option Nat :=
    match findMatchingSystem hostString v.systems with
    | some se => (se.url, se.checksum, se.archiveFileName, se.size)
    | none => (none, none, none, none)
  let s2 : Option String × Option String × Option String × Option Nat :=
    if truthyS s1.1 then s1
    else
      match v.platforms with
      | none => s1
      | some pm =>
        match pm.lookup osPlatform with
        | some pe => (jsOr pe.downloadUrl pe.url, jsOr pe.checksum pe.sha256,
                      pe.archiveFileName, pe.size)
        | none => s1
  let s3 : Option String × Option String × Option String × Option Nat :=
    if truthyS s2.1 then s2
    else if truthyS v.url then (v.url, v.checksum, v.archiveFileName, v.size)
    else s2
  match s3.1 with
  | some u => if u != "" then some ⟨u, s3.2.1, s3.2.2.1, s3.2.2.2⟩ else none
  | none => none

/-- `FetchResult` (`registry-fetcher.js` lines 220-228): optional fields are
`Option`s, and the absent `skipped` flag is `false`. -/
structure FetchResult where
  success : Bool
  name : String
  version : Option String
  extractPath : Option String
  error : Option String
  skipped : Bool
deriving DecidableEq

/-- Environment of one `fetchToolchain` call: the running platform and
architecture, the contents of the local extract directory per toolchain name
(`none` when the directory does not exist), the optional
`options.hasToolchain` checker, the packages index `getPackagesIndex` resolves
to (it never rejects), and the outcome of `downloadAndExtract` for a given
resolved download. -/
structure FetchEnv where
  platform : String
  arch : String
  extractDirFiles : String → Option (List String)
  hasToolchain : Option (String → Bool)
  packagesIndex : Packages
  download : DownloadInfo → Except String Unit

/-- `getHostString` from `registry-fetcher.js` line 30. -/
def getHostString (env : FetchEnv) : String :=
  env.platform ++ "-" ++ env.arch

/-- Lines 247-259: the local extract directory exists and is non-empty. -/
def localNonEmpty (env : FetchEnv) (name : String) : Bool :=
  match env.extractDirFiles name with
  | some files => files.length > 0
  | none => false

/-- Lines 262-269: `options.hasToolchain && options.hasToolchain(name)`. -/
def rsCacheHit (env : FetchEnv) (name : String) : Bool :=
  match env.hasToolchain with
  | some has => has name
  | none => false

/-- Potentially-networked operations observable during `fetchToolchain`:
consulting the packages index and downloading an archive from a URL. -/
inductive FetchEvent where
  | getIndex
  | download (url : String)
deriving DecidableEq

/-- `fetchToolchain` from `registry-fetcher.js` lines 242-376, returning the
`FetchResult` together with the trace of index/download operations.  The
branches in order: reuse a non-empty local extraction (skip, with
`extractPath`); Resource-Service cache hit (skip, without `extractPath`);
toolchain missing from the index (error); no resolvable version (error); no
download URL for this host (error); then `downloadAndExtract`, whose failure
is caught and returned as a failed result (the catch-all also restores
`version: "latest"`), and whose success yields `extractPath = extractDir`. -/
def fetchToolchain (env : FetchEnv) (projectDir name : String) :
    FetchResult × List FetchEvent :=
  let extractDir := projectDir ++ "/" ++ TOOLCHAINS_DIR ++ "/" ++ name
  if localNonEmpty env name then
    (⟨true, name, some "latest", some extractDir, none, true⟩, [])
  else if rsCacheHit env name then
    (⟨true, name, some "latest", none, none, true⟩, [])
  else
    match findToolchain env.packagesIndex name with
    | none =>
      (⟨false, name, some "latest", none,
        some ("Toolchain \"" ++ name ++ "\" not found in packages.json. " ++
          "Make sure Resource Service is running and the toolchain is available in an enabled repository."),
        false⟩, [FetchEvent.getIndex])
    | some info =>
      match getLatestVersion (some info) with
      | none =>
        (⟨false, name, some "latest", none,
          some ("No version available for toolchain \"" ++ name ++ "\""), false⟩,
         [FetchEvent.getIndex])
      | some v =>
        match resolveDownload (getHostString env) env.platform v with
        | none =>
          (⟨false, name, v.version, none,
            some ("No download URL for " ++ name ++ "@" ++ jsStr v.version ++
              " on " ++ getHostString env), false⟩,
           [FetchEvent.getIndex])
        | some d0 =>
          let d : DownloadInfo := ⟨d0.url, normalizeSha d0.sha256, d0.archiveFileName, d0.size⟩
          match env.download d with
          | Except.ok _ =>
            (⟨true, name, v.version, some extractDir, none, false⟩,
             [FetchEvent.getIndex, FetchEvent.download d.url])
          | Except.error e =>
            (⟨false, name, some "latest", none, some e, false⟩,
             [FetchEvent.getIndex, FetchEvent.download d.url])

/-- The argument shapes `fetchAllToolchains` distinguishes: a single string, an
array of strings, or anything else. -/
inductive ToolchainsArg where
  | strArg (s : String)
  | arrArg (l : List String)
  | otherArg

/-- Batch result of `fetchAllToolchains` (line 418). -/
structure BatchResult where
  success : Bool
  results : List FetchResult
deriving DecidableEq

/-- The sequential loop of `fetchAllToolchains` (lines 404-418): one
`fetchToolchain` call per name, results collected in input order, overall
success the conjunction of individual successes (`results.every`). -/
def runBatch (env : FetchEnv) (projectDir : String) (names : List String) : BatchResult :=
  let results := names.map (fun n => (fetchToolchain env projectDir n).1)
  ⟨results.all (fun r => r.success), results⟩

/-- `fetchAllToolchains` from `registry-fetcher.js` lines 389-419.  A string is
wrapped in a singleton list, an array is used as-is, and any other argument
type throws synchronously (modelled as `Except.error`); individual fetch
failures are already captured inside `fetchToolchain`'s result.  The progress
callbacks of the loop are elided (they do not affect the result). -/
def fetchAllToolchains (env : FetchEnv) (projectDir : String)
    (toolchains : ToolchainsArg) : Except String BatchResult :=
  match toolchains with
  | ToolchainsArg.strArg s => Except.ok (runBatch env projectDir [s])
  | ToolchainsArg.arrArg l => Except.ok (runBatch env projectDir l)
  | ToolchainsArg.otherArg => Except.error "toolchains must be a string or array of strings"

/-! ## Theorems -/

/-- Counterexample to claim C1: `new AdmZip(archivePath)` sits before the
`try` block, so when the archive fails to parse, the `fs.remove(tempExtractDir)`
cleanup never runs.  Starting from a state with a stale `.extracting`
directory — exactly what an interrupted earlier run leaves behind — the
invocation fails and the `.extracting` staging directory remains afterwards,
falsifying the claim's "no `.extracting` staging directory remains
afterward". -/
theorem claim_C1_counterexample :
    (extractPhase (Except.error "Invalid or unsupported zip format") (Except.ok [])
        ⟨some ["old-toolchain"], some ["stale-partial-file"]⟩).1 =
      Except.error "Invalid or unsupported zip format" ∧
    (extractPhase (Except.error "Invalid or unsupported zip format") (Except.ok [])
        ⟨some ["old-toolchain"], some ["stale-partial-file"]⟩).2.staging =
      some ["stale-partial-file"] :=
  ⟨rfl, rfl⟩

/-- Claim C1 (amended): for every invocation of `downloadAndExtract`, the
archive is extracted into the sibling staging directory, and only after the
whole extraction succeeds is any pre-existing destination removed and the
staging directory renamed into place; if `extractAllTo` fails inside the
`try` block, the staging directory is removed, the error propagates, and the
destination's prior contents (or absence) are unchanged with no `.extracting`
directory remaining; if instead the archive already fails to parse in the
`AdmZip` constructor (before the `try` block), the error propagates with the
state entirely untouched — the destination is unchanged, but a pre-existing
stale `.extracting` directory (left by an interrupted earlier run) remains,
since the staging cleanup only happens once an archive parses. -/
theorem claim_C1_atomic_extraction (s : ExtractFS) (zipOpen : Except String Unit)
    (zipContents : Except String (List String)) :
    (∀ e, zipOpen = Except.ok () → zipContents = Except.error e →
      extractPhase zipOpen zipContents s = (Except.error e, ⟨s.dest, none⟩)) ∧
    (∀ files, zipOpen = Except.ok () → zipContents = Except.ok files →
      extractPhase zipOpen zipContents s = (Except.ok (), ⟨some files, none⟩)) ∧
    (∀ e, zipOpen = Except.error e →
      extractPhase zipOpen zipContents s = (Except.error e, s)) := by
  refine ⟨?_, ?_, ?_⟩
  · rintro e rfl rfl
    rfl
  · rintro files rfl rfl
    rfl
  · rintro e rfl
    rfl

/-- Witness for claim C1: a pre-existing destination survives a corrupt-archive
extraction failure untouched, and no staging directory remains. -/
theorem claim_C1_witness :
    extractPhase (Except.ok ()) (Except.error "Invalid or unsupported zip format")
        ⟨some ["old-toolchain"], none⟩ =
      (Except.error "Invalid or unsupported zip format", ⟨some ["old-toolchain"], none⟩) :=
  (claim_C1_atomic_extraction ⟨some ["old-toolchain"], none⟩ (Except.ok ())
      (Except.error "Invalid or unsupported zip format")).1
    "Invalid or unsupported zip format" rfl rfl

/-- The libraries loop keeps exactly the local-path entries (in order) and
warns, in order, about every other entry. -/
theorem parseLibraryDeps_eq (l : List (String × String)) :
    parseLibraryDeps l =
      (l.filter (fun p => isLocalPath p.2),
       (l.filter (fun p => !(isLocalPath p.2))).map (fun p => libraryWarning p.1)) := by
  induction l with
  | nil => rfl
  | cons hd tl ih =>
    obtain ⟨n, i⟩ := hd
    by_cases h : isLocalPath i <;>
      simp [parseLibraryDeps, ih, List.filter_cons, h]

/-- The toolchains loop keeps local paths in the local map, "latest" in the
remote map, and warns about everything else. -/
theorem parseToolchainDeps_eq (l : List (String × String)) :
    parseToolchainDeps l =
      (l.filter (fun p => isLocalPath p.2),
       l.filter (fun p => !(isLocalPath p.2) && p.2 == "latest"),
       (l.filter (fun p => !(isLocalPath p.2) && !(p.2 == "latest"))).map
         (fun p => toolchainWarning p.1)) := by
  induction l with
  | nil => rfl
  | cons hd tl ih =>
    obtain ⟨n, i⟩ := hd
    by_cases h1 : isLocalPath i
    · simp [parseToolchainDeps, ih, List.filter_cons, h1]
    · by_cases h2 : i == "latest" <;>
        simp [parseToolchainDeps, ih, List.filter_cons, h1, h2]

/-- Claim C8: `parseDependencies` classifies an identifier starting with `./`
or `../` as a local path (for both libraries and toolchains); the literal
"latest" is accepted as remote for toolchains only — a library declared
"latest" fails the local-path test and is warned about; every other identifier
is excluded from all result maps and generates a warning (library warnings
first, then toolchain warnings, each in declaration order). -/
theorem claim_C8_dependency_classification (libraries toolchains : List (String × String)) :
    (parseDependencies libraries toolchains).libraries =
        libraries.filter (fun p => isLocalPath p.2) ∧
    (parseDependencies libraries toolchains).toolchainsLocal =
        toolchains.filter (fun p => isLocalPath p.2) ∧
    (parseDependencies libraries toolchains).toolchainsRemote =
        toolchains.filter (fun p => !(isLocalPath p.2) && p.2 == "latest") ∧
    (parseDependencies libraries toolchains).warnings =
        (libraries.filter (fun p => !(isLocalPath p.2))).map (fun p => libraryWarning p.1) ++
          (toolchains.filter (fun p => !(isLocalPath p.2) && !(p.2 == "latest"))).map
            (fun p => toolchainWarning p.1) := by
  refine ⟨?_, ?_, ?_, ?_⟩ <;>
    simp [parseDependencies, parseLibraryDeps_eq, parseToolchainDeps_eq]

/-- A colon-free character list is returned whole by `splitSeg`. -/
theorem splitSeg_eq_self (l : List Char) (h : ∀ c ∈ l, c ≠ ':') : splitSeg l = l := by
  induction l with
  | nil => rfl
  | cons c rest ih =>
    have hc : c ≠ ':' := h c (List.mem_cons_self c rest)
    simp [splitSeg, hc, ih (fun x hx => h x (List.mem_cons_of_mem c hx))]

/-- `split(':')[1]` of `a ++ ":" ++ d` with colon-free `a` is the first
segment of `d`. -/
theorem segAfterFirstColon_append (a d : List Char) (ha : ∀ c ∈ a, c ≠ ':') :
    segAfterFirstColon (a ++ ':' :: d) = splitSeg d := by
  induction a with
  | nil => simp [segAfterFirstColon]
  | cons c rest ih =>
    have hc : c ≠ ':' := ha c (List.mem_cons_self c rest)
    simp [segAfterFirstColon, hc, ih (fun x hx => ha x (List.mem_cons_of_mem c hx))]

/-- A string without a colon has no colon among its characters. -/
theorem strHasColon_false_mem {s : String} (h : strHasColon s = false) :
    ∀ c ∈ s.data, c ≠ ':' := by
  intro c hc
  simp only [strHasColon, List.any_eq_false, beq_iff_eq] at h
  exact h c hc

/-- The checksum normalization of `fetchToolchain` maps the prefixed form
`ALGO:hex` to the bare digest (for colon-free algorithm tag and digest). -/
theorem normalizeSha_prefixed (algo d : String)
    (h1 : strHasColon algo = false) (h2 : strHasColon d = false) :
    normalizeSha (some (algo ++ ":" ++ d)) = some d := by
  have hdata : (algo ++ ":" ++ d).data = algo.data ++ ':' :: d.data := by
    simp [String.data_append]
  have hcolon : strHasColon (algo ++ ":" ++ d) = true := by
    simp only [strHasColon, hdata, List.any_eq_true]
    exact ⟨':', by simp, by simp⟩
  have hafter : afterFirstColon (algo ++ ":" ++ d) = d := by
    unfold afterFirstColon
    rw [hdata, segAfterFirstColon_append _ _ (strHasColon_false_mem h1),
        splitSeg_eq_self _ (strHasColon_false_mem h2)]
  simp [normalizeSha, hcolon, hafter]

/-- `verifyChecksum` accepts a digest that agrees case-insensitively with the
computed one. -/
theorem verifyChecksum_correct (sha256hex : List Nat → String) (buffer : List Nat)
    (dgst : String) (h : strToLower dgst = strToLower (sha256hex buffer)) :
    verifyChecksum sha256hex buffer (some dgst) = true := by
  unfold verifyChecksum
  by_cases hd : dgst == "" <;> simp [hd, h]

/-- Claim C3: for every buffer and a correct digest, the checksum check of the
fetch pipeline accepts it both bare and in the prefixed `ALGO:hex` form (the
prefix being stripped by `fetchToolchain`'s `normalizeSha` step before
`verifyChecksum` compares, so only the portion after the first colon is
compared), case-insensitively; a buffer mutated in one byte (whose digest
therefore differs — the collision-freeness of SHA-256 is a hypothesis on the
abstract digest function) is rejected; and an absent or empty expected digest
always passes. -/
theorem claim_C3_checksum :
    (∀ (sha256hex : List Nat → String) (buffer : List Nat) (dgst : String),
        strToLower dgst = strToLower (sha256hex buffer) →
        verifyChecksum sha256hex buffer (some dgst) = true) ∧
    (∀ (sha256hex : List Nat → String) (buffer : List Nat) (algo dgst : String),
        strHasColon algo = false → strHasColon dgst = false →
        strToLower dgst = strToLower (sha256hex buffer) →
        verifyChecksum sha256hex buffer (normalizeSha (some (algo ++ ":" ++ dgst))) = true) ∧
    (∀ (sha256hex : List Nat → String) (buffer : List Nat) (i b : Nat) (dgst : String),
        dgst ≠ "" →
        strToLower dgst = strToLower (sha256hex buffer) →
        strToLower (sha256hex (buffer.set i b)) ≠ strToLower (sha256hex buffer) →
        verifyChecksum sha256hex (buffer.set i b) (some dgst) = false) ∧
    (∀ (sha256hex : List Nat → String) (buffer : List Nat),
        verifyChecksum sha256hex buffer none = true ∧
        verifyChecksum sha256hex buffer (some "") = true) := by
  refine ⟨?_, ?_, ?_, ?_⟩
  · exact verifyChecksum_correct
  · intro sha256hex buffer algo dgst h1 h2 h
    rw [normalizeSha_prefixed algo dgst h1 h2]
    exact verifyChecksum_correct sha256hex buffer dgst h
  · intro sha256hex buffer i b dgst hne h hdiff
    have hd : (dgst == "") = false := by simp [hne]
    unfold verifyChecksum
    simp only [hd, Bool.false_eq_true, if_false, beq_eq_false_iff_ne, ne_eq, h]
    exact hdiff
  · intro sha256hex buffer
    exact ⟨rfl, rfl⟩

/-- Witness for claim C3, with a concrete abstract digest function mapping the
buffer `[0]` to "aa" and everything else to "bb": the correct digest is
accepted bare (uppercase) and in `SHA-256:`-prefixed form, a one-byte mutation
is rejected, and an absent digest passes. -/
theorem claim_C3_witness :
    verifyChecksum (fun l => if l = [0] then "aa" else "bb") [0] (some "AA") = true ∧
    verifyChecksum (fun l => if l = [0] then "aa" else "bb") [0]
        (normalizeSha (some ("SHA-256" ++ ":" ++ "aA"))) = true ∧
    verifyChecksum (fun l => if l = [0] then "aa" else "bb") (List.set [0] 0 7)
        (some "AA") = false ∧
    verifyChecksum (fun l => if l = [0] then "aa" else "bb") [0] none = true := by
  refine ⟨?_, ?_, ?_, ?_⟩
  · exact claim_C3_checksum.1 _ [0] "AA" (by decide)
  · exact claim_C3_checksum.2.1 _ [0] "SHA-256" "aA" (by decide) (by decide) (by decide)
  · exact claim_C3_checksum.2.2.1 _ [0] 0 7 "AA" (by decide) (by decide) (by decide)
  · exact (claim_C3_checksum.2.2.2 _ [0]).1

/-- Every branch of `fetchToolchain` returns a result carrying the requested
toolchain name. -/
theorem fetchToolchain_name (env : FetchEnv) (p n : String) :
    ((fetchToolchain env p n).1).name = n := by
  unfold fetchToolchain
  dsimp only
  repeat' split
  all_goals rfl

/-- Claim C2: `fetchAllToolchains` returns exactly one `FetchResult` per input
name, in input order (each produced by `fetchToolchain`, so each carries its
name); the top-level success flag is the conjunction of the individual success
flags; the batch never throws for string or array arguments because every
individual failure is captured in `fetchToolchain`'s result; and any other
argument shape raises synchronously. -/
theorem claim_C2_batch_results (env : FetchEnv) (p : String) :
    (∀ l : List String,
        fetchAllToolchains env p (ToolchainsArg.arrArg l) = Except.ok (runBatch env p l) ∧
        (runBatch env p l).results = l.map (fun n => (fetchToolchain env p n).1) ∧
        (runBatch env p l).results.map (fun r => r.name) = l ∧
        (runBatch env p l).success = (runBatch env p l).results.all (fun r => r.success)) ∧
    (∀ s : String,
        fetchAllToolchains env p (ToolchainsArg.strArg s) = Except.ok (runBatch env p [s])) ∧
    fetchAllToolchains env p ToolchainsArg.otherArg =
      Except.error "toolchains must be a string or array of strings" := by
  refine ⟨?_, fun s => rfl, rfl⟩
  intro l
  refine ⟨rfl, rfl, ?_, rfl⟩
  simp [runBatch, List.map_map, Function.comp_def, fetchToolchain_name]

/-- Claim C4: a destination toolchain directory that exists and is non-empty
yields a skipped success with `extractPath` set and an empty operation trace
(no index consultation, no download, hence no network access); a
Resource-Service cache hit yields a skipped success without `extractPath`
(again with no operations); a failed result never carries `extractPath`; a
successful download-and-extract yields `extractPath` set to the local
toolchain directory; and whenever `extractPath` is present the result is
successful and the path is the local toolchain extraction directory — so
`extractPath` is present exactly for a fresh extraction or a reused non-empty
local extraction, and absent for a bare Resource-Service cache hit or any
failure. -/
theorem claim_C4_skip_and_extract_path (env : FetchEnv) (p n : String) :
    (localNonEmpty env n = true →
      fetchToolchain env p n =
        (⟨true, n, some "latest", some (p ++ "/" ++ TOOLCHAINS_DIR ++ "/" ++ n), none, true⟩,
         [])) ∧
    (localNonEmpty env n = false → rsCacheHit env n = true →
      fetchToolchain env p n = (⟨true, n, some "latest", none, none, true⟩, [])) ∧
    ((fetchToolchain env p n).1.success = false →
      (fetchToolchain env p n).1.extractPath = none) ∧
    (∀ (info : ToolchainInfo) (v : VersionEntry) (d0 : DownloadInfo),
      localNonEmpty env n = false → rsCacheHit env n = false →
      findToolchain env.packagesIndex n = some info →
      getLatestVersion (some info) = some v →
      resolveDownload (getHostString env) env.platform v = some d0 →
      env.download ⟨d0.url, normalizeSha d0.sha256, d0.archiveFileName, d0.size⟩ =
        Except.ok () →
      fetchToolchain env p n =
        (⟨true, n, v.version, some (p ++ "/" ++ TOOLCHAINS_DIR ++ "/" ++ n), none, false⟩,
         [FetchEvent.getIndex, FetchEvent.download d0.url])) ∧
    (∀ q, (fetchToolchain env p n).1.extractPath = some q →
      (fetchToolchain env p n).1.success = true ∧
        q = p ++ "/" ++ TOOLCHAINS_DIR ++ "/" ++ n) := by
  refine ⟨?_, ?_, ?_, ?_, ?_⟩
  · intro h
    simp [fetchToolchain, h]
  · intro h1 h2
    simp [fetchToolchain, h1, h2]
  · unfold fetchToolchain
    dsimp only
    repeat' split
    all_goals simp
  · intro info v d0 h1 h2 hf hv hres hdl
    simp [fetchToolchain, h1, h2, hf, hv, hres, hdl]
  · unfold fetchToolchain
    dsimp only
    repeat' split
    all_goals simp

/-- Witness for claim C4: with a non-empty local extraction directory the
fetch is a skipped success with `extractPath` and performs no operations. -/
theorem claim_C4_witness :
    localNonEmpty
        ⟨"linux", "x64", fun _ => some ["bin"], none, emptyPackages, fun _ => Except.ok ()⟩
        "avr-gcc" = true ∧
    fetchToolchain
        ⟨"linux", "x64", fun _ => some ["bin"], none, emptyPackages, fun _ => Except.ok ()⟩
        "proj" "avr-gcc" =
      (⟨true, "avr-gcc", some "latest",
        some ("proj" ++ "/" ++ TOOLCHAINS_DIR ++ "/" ++ "avr-gcc"), none, true⟩, []) := by
  refine ⟨rfl, ?_⟩
  exact (claim_C4_skip_and_extract_path
    ⟨"linux", "x64", fun _ => some ["bin"], none, emptyPackages, fun _ => Except.ok ()⟩
    "proj" "avr-gcc").1 rfl

/-- Counterexample to claim C5: a `VersionEntry` whose `systems` array contains
an entry exactly matching the host (`host = "linux-x64"`) but carrying no
`url`.  The claim says that when a systems entry matches, the platforms map
and direct url are never used; the code, however, leaves `downloadUrl` falsy
and falls through to the direct `url` field, which is what resolution returns
(with the direct entry's checksum, file name and size). -/
theorem claim_C5_counterexample :
    findMatchingSystem "linux-x64"
        (VersionEntry.mk (some "1.0.0")
          (some [⟨some "linux-x64", none, some "SYSCHK", none, none⟩])
          none (some "https://direct.example/tc.zip") (some "DIRCHK") (some "tc.zip")
          (some 10)).systems =
      some ⟨some "linux-x64", none, some "SYSCHK", none, none⟩ ∧
    resolveDownload "linux-x64" "linux"
        (VersionEntry.mk (some "1.0.0")
          (some [⟨some "linux-x64", none, some "SYSCHK", none, none⟩])
          none (some "https://direct.example/tc.zip") (some "DIRCHK") (some "tc.zip")
          (some 10)) =
      some ⟨"https://direct.example/tc.zip", some "DIRCHK", some "tc.zip", some 10⟩ :=
  ⟨rfl, rfl⟩

/-- Claim C5 (amended): the download location is resolved in the fixed priority
order systems array → platforms map → direct url, where a stage wins only by
yielding a truthy URL: host matching against the systems array is by exact
string equality on the `host` field (no alias normalization, and a host with
no exact entry matches nothing); a matching systems entry that itself carries
a non-empty URL is always used, with the platforms map and direct url ignored
(but a matching entry without a URL falls through — see the counterexample);
with no systems match, a platforms entry for the OS name supplying a truthy
URL is used; with neither, a truthy direct url field is used; and when
resolution yields nothing, `fetchToolchain` returns a failed `FetchResult`
with an error message. -/
theorem claim_C5_url_resolution :
    (∀ (hostString : String) (sys : Option (List SystemEntry)) (se : SystemEntry),
        findMatchingSystem hostString sys = some se → se.host = some hostString) ∧
    (∀ (hostString : String) (l : List SystemEntry),
        (∀ se ∈ l, se.host ≠ some hostString) →
        findMatchingSystem hostString (some l) = none) ∧
    (∀ (hostString os : String) (v : VersionEntry) (se : SystemEntry) (u : String),
        findMatchingSystem hostString v.systems = some se → se.url = some u → u ≠ "" →
        resolveDownload hostString os v = some ⟨u, se.checksum, se.archiveFileName, se.size⟩) ∧
    (∀ (hostString os : String) (v : VersionEntry) (pm : List (String × PlatformEntry))
        (pe : PlatformEntry) (u : String),
        findMatchingSystem hostString v.systems = none → v.platforms = some pm →
        pm.lookup os = some pe → jsOr pe.downloadUrl pe.url = some u → u ≠ "" →
        resolveDownload hostString os v =
          some ⟨u, jsOr pe.checksum pe.sha256, pe.archiveFileName, pe.size⟩) ∧
    (∀ (hostString os : String) (v : VersionEntry) (u : String),
        findMatchingSystem hostString v.systems = none → v.platforms = none →
        v.url = some u → u ≠ "" →
        resolveDownload hostString os v = some ⟨u, v.checksum, v.archiveFileName, v.size⟩) ∧
    (∀ (env : FetchEnv) (p n : String) (info : ToolchainInfo) (v : VersionEntry),
        localNonEmpty env n = false → rsCacheHit env n = false →
        findToolchain env.packagesIndex n = some info →
        getLatestVersion (some info) = some v →
        resolveDownload (getHostString env) env.platform v = none →
        (fetchToolchain env p n).1.success = false ∧
          (fetchToolchain env p n).1.error ≠ none) := by
  refine ⟨?_, ?_, ?_, ?_, ?_, ?_⟩
  · intro hostString sys se h
    cases sys with
    | none => exact absurd h (by simp [findMatchingSystem])
    | some l =>
      have h2 : l.find? (fun s => s.host == some hostString) = some se := by
        simpa [findMatchingSystem] using h
      have hp := List.find?_some h2
      simpa using hp
  · intro hostString l h
    simp only [findMatchingSystem, List.find?_eq_none, beq_iff_eq]
    exact h
  · intro hostString os v se u hfind hurl hne
    have hbne : (u != "") = true := by simp [hne]
    simp [resolveDownload, hfind, hurl, truthyS, hbne]
  · intro hostString os v pm pe u hfind hpm hlk hjs hne
    have hbne : (u != "") = true := by simp [hne]
    simp [resolveDownload, hfind, hpm, hlk, hjs, truthyS, hbne]
  · intro hostString os v u hfind hpm hurl hne
    have hbne : (u != "") = true := by simp [hne]
    simp [resolveDownload, hfind, hpm, hurl, truthyS, hbne]
  · intro env p n info v h1 h2 hf hv hres
    simp [fetchToolchain, h1, h2, hf, hv, hres]

/-- Witness for claim C5 (amended): a systems entry that matches the host and
carries a URL wins over both a platforms entry and a direct url field. -/
theorem claim_C5_witness :
    resolveDownload "linux-x64" "linux"
        ⟨some "1.0.0",
         some [⟨some "linux-x64", some "https://sys.example/a.zip", some "chk",
                some "a.zip", some 5⟩],
         some [("linux", ⟨some "https://plat.example/b.zip", none, none, none, none, none⟩)],
         some "https://direct.example/c.zip", some "dchk", some "c.zip", some 7⟩ =
      some ⟨"https://sys.example/a.zip", some "chk", some "a.zip", some 5⟩ :=
  claim_C5_url_resolution.2.2.1 "linux-x64" "linux" _
    ⟨some "linux-x64", some "https://sys.example/a.zip", some "chk", some "a.zip", some 5⟩
    "https://sys.example/a.zip" rfl rfl (by decide)

/-- The streaming loop emits only `recv` and `progress` events — never a cache
write. -/
theorem dlChunkEvents_no_write (hp : Bool) (ts : Nat) :
    ∀ (chunks : List (List Nat)) (d : Nat) (b : List Nat),
      DlEvent.writeCache b ∉ dlChunkEvents hp ts d chunks := by
  intro chunks
  induction chunks with
  | nil =>
    intro d b h
    simp [dlChunkEvents] at h
  | cons c rest ih =>
    intro d b h
    simp only [dlChunkEvents, List.mem_cons, List.mem_append] at h
    rcases h with h | h | h
    · cases h
    · split at h <;> simp_all
    · exact ih _ b h

/-- A trace without cache writes trivially writes only after all receives. -/
theorem noRecvAfterWrite_of_no_write (l : List DlEvent)
    (h : ∀ b, DlEvent.writeCache b ∉ l) : noRecvAfterWrite l = true := by
  induction l with
  | nil => rfl
  | cons e rest ih =>
    have hrest : ∀ b, DlEvent.writeCache b ∉ rest := fun b hb =>
      h b (List.mem_cons_of_mem e hb)
    cases e with
    | writeCache b => exact absurd (List.mem_cons_self _ _) (h b)
    | fetchUrl => simpa [noRecvAfterWrite] using ih hrest
    | recv c => simpa [noRecvAfterWrite] using ih hrest
    | progress pct => simpa [noRecvAfterWrite] using ih hrest

/-- Appending a single cache write to a write-free trace keeps every receive
before the write. -/
theorem noRecvAfterWrite_append_write (l : List DlEvent) (b0 : List Nat)
    (h : ∀ b, DlEvent.writeCache b ∉ l) :
    noRecvAfterWrite (l ++ [DlEvent.writeCache b0]) = true := by
  induction l with
  | nil => rfl
  | cons e rest ih =>
    have hrest : ∀ b, DlEvent.writeCache b ∉ rest := fun b hb =>
      h b (List.mem_cons_of_mem e hb)
    cases e with
    | writeCache b => exact absurd (List.mem_cons_self _ _) (h b)
    | fetchUrl => simpa [noRecvAfterWrite] using ih hrest
    | recv c => simpa [noRecvAfterWrite] using ih hrest
    | progress pct => simpa [noRecvAfterWrite] using ih hrest

/-- The fetch event followed by the streaming events contains no cache write. -/
theorem fetch_cons_no_write (hp : Bool) (ts : Nat) (chunks : List (List Nat)) :
    ∀ b, DlEvent.writeCache b ∉
      (DlEvent.fetchUrl :: dlChunkEvents hp ts 0 chunks) := by
  intro b hb
  rcases List.mem_cons.mp hb with h | h
  · cases h
  · exact dlChunkEvents_no_write hp ts chunks 0 b h

/-- Claim C6: when a cached archive exists, a checksum was supplied, and the
cached file verifies, no download happens at all (no events, the cache is
reused, and the phase succeeds into extraction); in every other case the URL
is fetched; and in every case the cache file is written only after the entire
body has been received, and whatever is written is exactly the full
concatenated response body. -/
theorem claim_C6_download_cache (env : DlEnv) (url : String) (a : DlArgs) :
    (skipDownload env.hash env.cached a.sha256 = true →
      downloadPhase env url a = ⟨[], Except.ok (), env.cached⟩) ∧
    (skipDownload env.hash env.cached a.sha256 = false →
      DlEvent.fetchUrl ∈ (downloadPhase env url a).events) ∧
    noRecvAfterWrite (downloadPhase env url a).events = true ∧
    (∀ (cl : Nat) (chunks : List (List Nat)) (b : List Nat),
        env.response = Except.ok (cl, chunks) →
        DlEvent.writeCache b ∈ (downloadPhase env url a).events → b = chunks.flatten) := by
  refine ⟨?_, ?_, ?_, ?_⟩
  · intro h
    simp [downloadPhase, h]
  · intro h
    cases henv : env.response with
    | error e => simp [downloadPhase, h, henv]
    | ok pr =>
      obtain ⟨cl, chunks⟩ := pr
      by_cases hck : (truthyS a.sha256 &&
          !(verifyChecksum env.hash chunks.flatten a.sha256)) = true
      · simp [downloadPhase, h, henv, hck]
      · simp [downloadPhase, h, henv, hck]
  · by_cases hskip : skipDownload env.hash env.cached a.sha256 = true
    · simp [downloadPhase, hskip, noRecvAfterWrite]
    · cases henv : env.response with
      | error e => simp [downloadPhase, hskip, henv, noRecvAfterWrite]
      | ok pr =>
        obtain ⟨cl, chunks⟩ := pr
        by_cases hck : (truthyS a.sha256 &&
            !(verifyChecksum env.hash chunks.flatten a.sha256)) = true
        · have hnw := noRecvAfterWrite_of_no_write _
            (fetch_cons_no_write a.hasOnProgress (dlTotalSize a.size cl) chunks)
          simpa [downloadPhase, hskip, henv, hck] using hnw
        · have hnw := noRecvAfterWrite_append_write _ chunks.flatten
            (fetch_cons_no_write a.hasOnProgress (dlTotalSize a.size cl) chunks)
          simpa [downloadPhase, hskip, henv, hck] using hnw
  · intro cl chunks b hresp hmem
    by_cases hskip : skipDownload env.hash env.cached a.sha256 = true
    · simp [downloadPhase, hskip] at hmem
    · by_cases hck : (truthyS a.sha256 &&
          !(verifyChecksum env.hash chunks.flatten a.sha256)) = true
      · have hev : (downloadPhase env url a).events =
            DlEvent.fetchUrl ::
              dlChunkEvents a.hasOnProgress (dlTotalSize a.size cl) 0 chunks := by
          simp [downloadPhase, hskip, hresp, hck]
        rw [hev] at hmem
        exact absurd hmem
          (fetch_cons_no_write a.hasOnProgress (dlTotalSize a.size cl) chunks b)
      · have hev : (downloadPhase env url a).events =
            (DlEvent.fetchUrl ::
              dlChunkEvents a.hasOnProgress (dlTotalSize a.size cl) 0 chunks) ++
              [DlEvent.writeCache chunks.flatten] := by
          simp [downloadPhase, hskip, hresp, hck]
        rw [hev] at hmem
        rcases List.mem_append.mp hmem with h | h
        · exact absurd h
            (fetch_cons_no_write a.hasOnProgress (dlTotalSize a.size cl) chunks b)
        · simpa using List.mem_singleton.mp h

/-- Witness for claim C6: a verified cache hit downloads nothing, and a miss
fetches the URL. -/
theorem claim_C6_witness :
    skipDownload (fun _ => "aa") (some [1]) (some "aa") = true ∧
    downloadPhase ⟨fun _ => "aa", some [1], Except.error "net down"⟩ "https://x/t.zip"
        ⟨some "aa", none, false⟩ = ⟨[], Except.ok (), some [1]⟩ ∧
    skipDownload (fun _ => "aa") none none = false ∧
    DlEvent.fetchUrl ∈ (downloadPhase ⟨fun _ => "aa", none, Except.ok (2, [[5], [6]])⟩
        "https://x/t.zip" ⟨none, none, false⟩).events := by
  refine ⟨rfl, ?_, rfl, ?_⟩
  · exact (claim_C6_download_cache ⟨fun _ => "aa", some [1], Except.error "net down"⟩
      "https://x/t.zip" ⟨some "aa", none, false⟩).1 rfl
  · exact (claim_C6_download_cache ⟨fun _ => "aa", none, Except.ok (2, [[5], [6]])⟩
      "https://x/t.zip" ⟨none, none, false⟩).2.1 rfl

/-- Counterexample to claim C9: two 1-byte chunks of a 1000-byte download both
compute percent 0, and `downloadAndExtract` invokes `onProgress` once per
chunk regardless — so two consecutive `onProgress` invocations of the same
download report the same percent. -/
theorem claim_C9_counterexample :
    hasAdjacentDup (progressPercents
      (downloadPhase ⟨fun _ => "", none, Except.ok (1000, [[7], [7]])⟩ "https://x/t.zip"
        ⟨none, some 1000, true⟩).events) = true := rfl

/-- The drawn percents of the caller's deduplicating handler never start with
the percent it was told was last drawn. -/
theorem callerProgressUpdates_head : ∀ (ps : List Nat) (last : Int) (q : Nat),
    (callerProgressUpdates last ps).head? = some q → (q : Int) ≠ last := by
  intro ps
  induction ps with
  | nil =>
    intro last q h
    simp [callerProgressUpdates] at h
  | cons p rest ih =>
    intro last q h
    by_cases hp : (p : Int) = last
    · simp only [callerProgressUpdates, if_pos hp] at h
      exact ih last q h
    · simp only [callerProgressUpdates, if_neg hp, List.head?_cons, Option.some.injEq] at h
      subst h
      exact hp

/-- The caller's deduplicating handler never draws the same percent twice in a
row, whatever the incoming percent stream. -/
theorem callerProgressUpdates_nodup : ∀ (ps : List Nat) (last : Int),
    hasAdjacentDup (callerProgressUpdates last ps) = false := by
  intro ps
  induction ps with
  | nil => intro last; rfl
  | cons p rest ih =>
    intro last
    by_cases hp : (p : Int) = last
    · simp only [callerProgressUpdates, if_pos hp]
      exact ih last
    · simp only [callerProgressUpdates, if_neg hp]
      cases hrest : callerProgressUpdates (p : Int) rest with
      | nil => rfl
      | cons q tl =>
        have hq : (q : Int) ≠ (p : Int) :=
          callerProgressUpdates_head rest (p : Int) q (by rw [hrest]; rfl)
        have hpq : (p == q) = false := by
          simp only [beq_eq_false_iff_ne, ne_eq]
          intro heq
          exact hq (by rw [heq])
        have htl : hasAdjacentDup (q :: tl) = false := by
          rw [← hrest]
          exact ih (p : Int)
        simp [hasAdjacentDup, hpq, htl]

/-- Claim C9 (amended): during a download, `downloadAndExtract` invokes the
progress callback once per received chunk (whenever a callback is supplied and
the total size is positive), so consecutive invocations may well report the
same percent; the percent-change deduplication lives in the dev command's
`onDownloadProgress` handler, which compares against `lastTcPercent` and
redraws only when the percent differs — its drawn stream never repeats a
percent twice in a row (starting from the initial `lastTcPercent = -1`). -/
theorem claim_C9_progress_dedup :
    (∀ (ts d : Nat) (chunks : List (List Nat)),
        0 < ts →
        (progressPercents (dlChunkEvents true ts d chunks)).length = chunks.length) ∧
    (∀ ps : List Nat, hasAdjacentDup (callerProgressUpdates (-1) ps) = false) := by
  constructor
  · intro ts d chunks h
    induction chunks generalizing d with
    | nil => rfl
    | cons c rest ih =>
      simp [dlChunkEvents, progressPercents, h, ih]
  · intro ps
    exact callerProgressUpdates_nodup ps (-1)

/-- Witness for claim C9 (amended): a two-chunk download with a known total
invokes the progress callback exactly twice. -/
theorem claim_C9_progress_witness :
    0 < 1000 ∧
    (progressPercents (dlChunkEvents true 1000 0 [[7], [7]])).length = [[7], [7]].length :=
  ⟨by decide, claim_C9_progress_dedup.1 1000 0 [[7], [7]] (by decide)⟩

/-- When both sources yield nothing, the refresh path produces the empty
default structure and caches it with the current timestamp. -/
theorem refreshPackagesIndex_empty (env : IndexEnv) (now : Nat)
    (registryUrl : Option String) (hrs : env.rsResult = none)
    (hreg : ∀ q, env.regResult ≠ some (some q)) :
    refreshPackagesIndex env now registryUrl =
      (emptyPackages, ⟨some emptyPackages, now⟩,
        if truthyS registryUrl then [NetEvent.regFetch] else [NetEvent.rsFetch]) := by
  unfold refreshPackagesIndex
  by_cases hr : truthyS registryUrl = true
  · cases hregv : env.regResult with
    | none => simp [hr, hregv]
    | some o =>
      cases o with
      | none => simp [hr, hregv]
      | some q => exact absurd hregv (hreg q)
  · simp only [Bool.not_eq_true] at hr
    simp [hr, hrs]

/-- Claim C7: `getPackagesIndex` never throws — when the companion service
yields nothing and no usable registry response is obtained, the result is the
empty default structure `{devices: [], extensions: [], libraries: [],
toolchains: []}`; moreover every call leaves the returned index in the
module-level cache, and as long as later calls (without `forceRefresh`) fall
within the 1-hour TTL of the cached timestamp, each returns the identical
cached index, touches no network, and leaves the cache state unchanged. -/
theorem claim_C7_index_cache :
    (∀ (env : IndexEnv) (now : Nat) (registryUrl : Option String) (forceRefresh : Bool)
        (st : IndexState),
        env.rsResult = none → (∀ q, env.regResult ≠ some (some q)) →
        st.cachedPackages = none →
        (getPackagesIndex env now registryUrl forceRefresh st).1 = emptyPackages) ∧
    (∀ (env : IndexEnv) (now : Nat) (r : Option String) (f : Bool) (st : IndexState),
        ((getPackagesIndex env now r f st).2.1).cachedPackages =
          some (getPackagesIndex env now r f st).1) ∧
    (∀ (st : IndexState) (pkg : Packages) (calls : List (IndexEnv × Nat × Option String)),
        st.cachedPackages = some pkg →
        (∀ c ∈ calls, c.2.1 - st.cacheTimestamp < PACKAGES_CACHE_TTL) →
        runIndexCalls st calls = (calls.map (fun _ => (pkg, [])), st)) := by
  refine ⟨?_, ?_, ?_⟩
  · intro env now registryUrl f st hrs hreg hst
    rw [show getPackagesIndex env now registryUrl f st =
      refreshPackagesIndex env now registryUrl by simp [getPackagesIndex, hst]]
    rw [refreshPackagesIndex_empty env now registryUrl hrs hreg]
  · intro env now r f st
    cases hc : st.cachedPackages with
    | none =>
      simp only [getPackagesIndex, hc]
      rfl
    | some c =>
      simp only [getPackagesIndex, hc]
      split
      · simpa using hc
      · rfl
  · intro st pkg calls
    induction calls with
    | nil =>
      intro hst hall
      rfl
    | cons c rest ih =>
      intro hst hall
      obtain ⟨cenv, cnow, cr⟩ := c
      have hfresh : cnow - st.cacheTimestamp < PACKAGES_CACHE_TTL :=
        hall (cenv, cnow, cr) (List.mem_cons_self _ _)
      have hcall : getPackagesIndex cenv cnow cr false st = (pkg, st, []) := by
        simp [getPackagesIndex, hst, hfresh]
      simp only [runIndexCalls, hcall,
        ih hst (fun c hc => hall c (List.mem_cons_of_mem _ hc)), List.map_cons]

/-- Witness for claim C7: with an unreachable companion service and no usable
registry, a cold call returns the empty default structure; and with a warm
cache, a later call within the TTL returns the cached index without any
network traffic and leaves the state unchanged. -/
theorem claim_C7_witness :
    (getPackagesIndex ⟨none, none⟩ 5 none false ⟨none, 0⟩).1 = emptyPackages ∧
    runIndexCalls ⟨some emptyPackages, 5⟩ [(⟨none, none⟩, 6, none)] =
      ([(emptyPackages, [])], ⟨some emptyPackages, 5⟩) := by
  constructor
  · exact claim_C7_index_cache.1 ⟨none, none⟩ 5 none false ⟨none, 0⟩ rfl
      (fun q h => by cases h) rfl
  · exact claim_C7_index_cache.2.2 ⟨some emptyPackages, 5⟩ emptyPackages
      [(⟨none, none⟩, 6, none)]
      rfl
      (by
        intro c hc
        rw [List.mem_singleton] at hc
        subst hc
        decide)

/-- Claim C10: when both the companion service and the registry yield nothing,
the empty default structure is itself stored in the module-level cache with
the current timestamp (and the one failed source was the only network
contact); every subsequent call within the 1-hour TTL (without forceRefresh)
then returns that empty index with no network contact at all and an unchanged
cache state. -/
theorem claim_C10_empty_default_cached :
    (∀ (env : IndexEnv) (now : Nat) (r : Option String) (st : IndexState),
        env.rsResult = none → (∀ q, env.regResult ≠ some (some q)) →
        st.cachedPackages = none →
        getPackagesIndex env now r false st =
          (emptyPackages, ⟨some emptyPackages, now⟩,
            if truthyS r then [NetEvent.regFetch] else [NetEvent.rsFetch])) ∧
    (∀ (env2 : IndexEnv) (now now2 : Nat) (r2 : Option String),
        now2 - now < PACKAGES_CACHE_TTL →
        getPackagesIndex env2 now2 r2 false ⟨some emptyPackages, now⟩ =
          (emptyPackages, ⟨some emptyPackages, now⟩, [])) := by
  constructor
  · intro env now r st hrs hreg hst
    rw [show getPackagesIndex env now r false st = refreshPackagesIndex env now r by
      simp [getPackagesIndex, hst]]
    exact refreshPackagesIndex_empty env now r hrs hreg
  · intro env2 now now2 r2 h
    simp [getPackagesIndex, h]

/-- Witness for claim C10: after a cold both-sources-fail call at time 7 the
empty default is cached; a call at time 8 — even with a now-reachable
companion service able to return a different index — serves the cached empty
index with no network events. -/
theorem claim_C10_witness :
    getPackagesIndex ⟨none, none⟩ 7 none false ⟨none, 0⟩ =
      (emptyPackages, ⟨some emptyPackages, 7⟩, [NetEvent.rsFetch]) ∧
    getPackagesIndex ⟨some ⟨none, none, none, none⟩, none⟩ 8 none false
        ⟨some emptyPackages, 7⟩ =
      (emptyPackages, ⟨some emptyPackages, 7⟩, []) := by
  constructor
  · exact claim_C10_empty_default_cached.1 ⟨none, none⟩ 7 none ⟨none, 0⟩ rfl
      (fun q h => by cases h) rfl
  · exact claim_C10_empty_default_cached.2 ⟨some ⟨none, none, none, none⟩, none⟩ 7 8 none
      (by decide)
